import Mathlib

set_option maxHeartbeats 1000000

/-!
Shallow embedding of the transform algebra of the multi-TI image
calculation pipeline, file src/registration.py.

Transforms are modelled over the rationals: a rigid transform carries a
rotation matrix, a translation vector and a center of rotation
(the ITK Euler3DTransform data); a similarity transform additionally
carries a scalar scale (the ITK Similarity3DTransform data, which keeps
the scale separate from the rotation and whose GetMatrix returns the
scaled matrix).  File reading and writing is elided: each Python
function that reads transform files and writes new ones is embedded as
a pure function from transform values to transform values, mirroring
the arithmetic of the source line by line.
-/

open Matrix

/-- Rigid transform data: rotation matrix, translation, center of rotation,
as stored by an ITK Euler3DTransform.  The transform maps a point x to
rotation * (x - center) + center + translation. -/
structure RigidTransform where
  rotation : Matrix (Fin 3) (Fin 3) ℚ
  translation : Fin 3 → ℚ
  center : Fin 3 → ℚ

/-- Similarity transform data: scalar scale plus the rigid data, as stored
by an ITK Similarity3DTransform.  The transform maps a point x to
scale * rotation * (x - center) + center + translation. -/
structure SimilarityTransform where
  scale : ℚ
  rotation : Matrix (Fin 3) (Fin 3) ℚ
  translation : Fin 3 → ℚ
  center : Fin 3 → ℚ

/-- The point mapping realized by a rigid transform. -/
def applyRigid (T : RigidTransform) (x : Fin 3 → ℚ) : Fin 3 → ℚ :=
  T.rotation.mulVec (x - T.center) + T.center + T.translation

/-- Apply a list of rigid transforms to a point, element 0 applied last:
applySeq [T0, T1, T2] x = T0 (T1 (T2 x)). -/
def applySeq : List RigidTransform → (Fin 3 → ℚ) → (Fin 3 → ℚ)
  | [], x => x
  | T :: rest, x => applyRigid T (applySeq rest x)

/-- GetMatrix of a Similarity3DTransform: the rotation scaled by the scale. -/
def SimilarityTransform.getMatrix (S : SimilarityTransform) :
    Matrix (Fin 3) (Fin 3) ℚ :=
  S.scale • S.rotation

/-- SetScale of a Similarity3DTransform: replaces the scale, keeping the
rotation, translation and center. -/
def SimilarityTransform.setScale (S : SimilarityTransform) (s : ℚ) :
    SimilarityTransform :=
  { S with scale := s }

/-- GetInverse of a similarity transform with orthonormal rotation R,
scale s, center c and translation t: the inverse has scale 1/s, rotation
the transpose of R, the same center c, and translation -(1/s) Rt t
(so that the composite of the two maps is the identity). -/
def SimilarityTransform.getInverse (S : SimilarityTransform) :
    SimilarityTransform :=
  { scale := S.scale⁻¹,
    rotation := S.rotation.transpose,
    translation := -(S.scale⁻¹ • S.rotation.transpose.mulVec S.translation),
    center := S.center }

/-- GetInverse of a rigid transform with orthonormal rotation R, center c
and translation t: rotation the transpose of R, same center, translation
-(Rt t). -/
def RigidTransform.getInverse (T : RigidTransform) : RigidTransform :=
  { rotation := T.rotation.transpose,
    translation := -(T.rotation.transpose.mulVec T.translation),
    center := T.center }

/-- A freshly constructed Similarity3DTransform: unit scale, identity
rotation, zero translation, center at the origin. -/
def similarityIdentity : SimilarityTransform :=
  { scale := 1, rotation := 1, translation := 0, center := 0 }

/-- Embedding of extract_rigid_transform (src/registration.py lines 19-61).
The inverse scale transform is a fresh Similarity3DTransform whose scale is
set to the scale of the inverse of the input transform and whose center is
set from the fixed image header: component 0 is 0 and components 1 and 2
are (shape1 - shape2) * spacing0, with the shape subtraction over the
integers as in Python.  Then the input scale is reset to 1.0 and the rigid
transform is built from its matrix, translation and center.  The pair is
returned in source order: (inverse scale transform, rigid transform). -/
def extract_rigid_transform (tfm : SimilarityTransform)
    (dim0 dim1 dim2 : ℕ) (spacing0 : ℚ) :
    SimilarityTransform × RigidTransform :=
  let inv_scale_tfm : SimilarityTransform :=
    { similarityIdentity with
        scale := tfm.getInverse.scale,
        center := ![0, ((dim1 : ℚ) - (dim2 : ℚ)) * spacing0,
                    ((dim1 : ℚ) - (dim2 : ℚ)) * spacing0] }
  let tfm1 := tfm.setScale 1
  let rigid : RigidTransform :=
    { rotation := tfm1.getMatrix,
      translation := tfm1.translation,
      center := tfm1.center }
  (inv_scale_tfm, rigid)

/-- Transforms as read back from a transform file: a rigid transform, a
similarity transform, or a composite wrapper around a list of
sub-transforms (possibly nested). -/
inductive Transform where
  | rigid (T : RigidTransform)
  | similarity (S : SimilarityTransform)
  | composite (ts : List Transform)

mutual

/-- FlattenTransform on one transform: a composite is expanded into the
flat list of its leaves; a simple transform is the one-element list. -/
def flattenOne : Transform → List Transform
  | Transform.rigid T => [Transform.rigid T]
  | Transform.similarity S => [Transform.similarity S]
  | Transform.composite ts => flattenMany ts

/-- FlattenTransform on a transform queue. -/
def flattenMany : List Transform → List Transform
  | [] => []
  | t :: rest => flattenOne t ++ flattenMany rest

end

/-- Embedding of extract_from_composite (src/registration.py lines 64-83):
flatten the composite transform, then take sub-transform number 0 and
write it out.  Taking element 0 of an empty queue has no value, hence the
Option; no other check is performed. -/
def extract_from_composite (composite : Transform) : Option Transform :=
  (flattenOne composite).head?

/-- One step of the composition fold of compose_transforms
(src/registration.py lines 104-109).  The accumulator is the triple
(mat, c, t); for the current transform the update is
mat A = matCurr * mat and tA = matCurr (t + c - cCurr) + tCurr + cCurr - c,
with c left unchanged. -/
def compose_step
    (acc : Matrix (Fin 3) (Fin 3) ℚ × (Fin 3 → ℚ) × (Fin 3 → ℚ))
    (curr : RigidTransform) :
    Matrix (Fin 3) (Fin 3) ℚ × (Fin 3 → ℚ) × (Fin 3 → ℚ) :=
  (curr.rotation * acc.1,
   acc.2.1,
   curr.rotation.mulVec (acc.2.2 + acc.2.1 - curr.center)
     + curr.translation + curr.center - acc.2.1)

/-- Embedding of compose_transforms (src/registration.py lines 86-115):
starting from the identity matrix, zero center and zero translation, fold
compose_step over the reversed input list, and return the Euler transform
assembled from the resulting matrix, translation and center. -/
def compose_transforms (transform_list : List RigidTransform) :
    RigidTransform :=
  let res := transform_list.reverse.foldl compose_step
    ((1 : Matrix (Fin 3) (Fin 3) ℚ), (0 : Fin 3 → ℚ), (0 : Fin 3 → ℚ))
  { rotation := res.1, translation := res.2.2, center := res.2.1 }

/-- Embedding of the COMBINE TRANSFORMS branch of main
(src/registration.py lines 473-479).  The orchestrator has already
enforced that fixed_transform and fixed_target co-occur, so the prior is
modelled as one optional pair of a transform and a target image path.
With a prior, the transform to use is compose_transforms over
[rigid_mat, prior transform] and the target is the prior target; without
one, the transform is rigid_mat and the target the fixed image. -/
def combine_transforms_branch (rigid_mat : RigidTransform)
    (prior : Option (RigidTransform × String)) (fixed_image : String) :
    RigidTransform × String :=
  match prior with
  | some pr => (compose_transforms [rigid_mat, pr.1], pr.2)
  | none => (rigid_mat, fixed_image)

/-- Embedding of the masks argument of the first refinement stage
(src/registration.py line 450).  The Python expression is a conditional
expression whose condition binds below the percent formatting, so the
pair formatting applies only when the registration mask is absent; when a
mask is present the bare mask path itself is the argument. -/
def stage1_masks_argument (fixed_regmask_to_use : Option String) : String :=
  match fixed_regmask_to_use with
  | none => "[None,None]"
  | some p => p

/-- Embedding of the masks argument of the second refinement stage
(src/registration.py line 462): the brain mask wrapped as a pair. -/
def stage2_masks_argument (fixed_brainmask_to_use : String) : String :=
  "[" ++ fixed_brainmask_to_use ++ ",None]"

/-- A sample rotation matrix: rotation by a quarter turn about axis 2. -/
def rot90z : Matrix (Fin 3) (Fin 3) ℚ :=
  !![0, -1, 0; 1, 0, 0; 0, 0, 1]

/-- A sample rigid transform with nontrivial rotation, translation and
center, used to instantiate universally quantified theorems. -/
def sampleT : RigidTransform :=
  { rotation := rot90z, translation := ![4, 5, 6], center := ![1, 2, 3] }

/-- A second sample rigid transform with a distinct center. -/
def sampleA : RigidTransform :=
  { rotation := 1, translation := ![2, 3, 4], center := ![1, 0, 0] }

/-- A third sample rigid transform with a distinct center. -/
def sampleB : RigidTransform :=
  { rotation := rot90z, translation := ![5, 0, 0], center := ![0, 1, 0] }

/-- A sample point. -/
def sampleP : Fin 3 → ℚ :=
  ![7, 8, 9]

/-- A sample similarity transform with scale 2. -/
def sampleSim : SimilarityTransform :=
  { scale := 2, rotation := 1, translation := ![1, 1, 1], center := ![0, 0, 2] }

/-- A sample similarity transform with scale 3, used as a non-rigid leaf
inside composite transforms. -/
def sampleSim3 : SimilarityTransform :=
  { scale := 3, rotation := 1, translation := 0, center := 0 }

/-- Sample path of the scaled registration mask file. -/
def regmaskPath : String := "scaled_fixed_regmask.nii.gz"

/-- Sample path of the scaled brain mask file. -/
def brainmaskPath : String := "scaled_fixed_brainmask.nii.gz"

/-- The center component of the composition accumulator is never changed by
the fold of compose_transforms: it stays at the origin. -/
lemma compose_foldr_center (ts : List RigidTransform) :
    (ts.foldr (fun curr acc => compose_step acc curr)
      ((1 : Matrix (Fin 3) (Fin 3) ℚ), (0 : Fin 3 → ℚ), (0 : Fin 3 → ℚ))).2.1
      = 0 := by
  induction ts with
  | nil => rfl
  | cons T rest ih => simpa [compose_step] using ih

/-- Semantics of the composition fold: the accumulated matrix applied to a
point plus the accumulated translation equals the sequential application
of the transform list, element 0 last. -/
lemma compose_foldr_apply (ts : List RigidTransform) (x : Fin 3 → ℚ) :
    (ts.foldr (fun curr acc => compose_step acc curr)
        ((1 : Matrix (Fin 3) (Fin 3) ℚ), (0 : Fin 3 → ℚ), (0 : Fin 3 → ℚ))).1.mulVec x
      + (ts.foldr (fun curr acc => compose_step acc curr)
        ((1 : Matrix (Fin 3) (Fin 3) ℚ), (0 : Fin 3 → ℚ), (0 : Fin 3 → ℚ))).2.2
      = applySeq ts x := by
  induction ts with
  | nil => simp [applySeq]
  | cons T rest ih =>
    have hc := compose_foldr_center rest
    rcases hE : rest.foldr (fun curr acc => compose_step acc curr)
        ((1 : Matrix (Fin 3) (Fin 3) ℚ), (0 : Fin 3 → ℚ), (0 : Fin 3 → ℚ))
      with ⟨R, c, t⟩
    rw [hE] at ih hc
    simp only [List.foldr_cons, hE]
    obtain rfl : c = 0 := hc
    simp only [applySeq, ← ih, compose_step, applyRigid]
    simp only [add_zero, sub_zero, Matrix.mulVec_add, Matrix.mulVec_sub,
      ← Matrix.mulVec_mulVec]
    abel

/-- C1: for every non-empty list of rigid transforms, compose_transforms
(which folds the reversed list with the accumulator center held at the
origin) produces a transform whose center is the origin and whose point
mapping equals applying the transforms in sequence, element 0 applied
last. -/
theorem compose_transforms_correct (ts : List RigidTransform)
    (hne : ts ≠ []) (x : Fin 3 → ℚ) :
    (compose_transforms ts).center = 0 ∧
    applyRigid (compose_transforms ts) x = applySeq ts x := by
  have hfold := List.foldl_reverse ts compose_step
    ((1 : Matrix (Fin 3) (Fin 3) ℚ), (0 : Fin 3 → ℚ), (0 : Fin 3 → ℚ))
  have hc := compose_foldr_center ts
  have ha := compose_foldr_apply ts x
  rw [← hfold] at hc ha
  refine ⟨hc, ?_⟩
  rw [← ha]
  simp only [compose_transforms, applyRigid, hc, sub_zero, add_zero]

/-- Witness for C1 at a concrete two-element chain of rigid transforms with
distinct centers and a concrete point. -/
theorem compose_transforms_correct_witness :
    ([sampleA, sampleB] : List RigidTransform) ≠ [] ∧
    ((compose_transforms [sampleA, sampleB]).center = 0 ∧
     applyRigid (compose_transforms [sampleA, sampleB]) sampleP =
       applySeq [sampleA, sampleB] sampleP) :=
  ⟨by simp, compose_transforms_correct [sampleA, sampleB] (by simp) sampleP⟩

/-- C2 counterexample: composing the empty sequence does not fail; it
silently produces the identity transform (identity rotation, zero
translation, center at the origin), contrary to the claimed
CompositionError. -/
theorem compose_transforms_empty_counterexample :
    (compose_transforms ([] : List RigidTransform)).rotation = 1 ∧
    (compose_transforms ([] : List RigidTransform)).translation = 0 ∧
    (compose_transforms ([] : List RigidTransform)).center = 0 :=
  ⟨rfl, rfl, rfl⟩

/-- C2 amended: composing the empty sequence of transforms succeeds and
returns the identity rigid transform; no error path exists in
compose_transforms. -/
theorem compose_transforms_empty_identity :
    compose_transforms ([] : List RigidTransform) =
      { rotation := 1, translation := 0, center := 0 } :=
  rfl

/-- C3 counterexample: extracting from a composite that still wraps two
sub-transforms after flattening does not fail; the first sub-transform is
returned.  Likewise a composite whose single remaining sub-transform is a
similarity (not rigid) transform is returned without any failure. -/
theorem extract_from_composite_counterexample :
    extract_from_composite (Transform.composite
        [Transform.rigid sampleA, Transform.rigid sampleB]) =
      some (Transform.rigid sampleA) ∧
    extract_from_composite (Transform.composite
        [Transform.similarity sampleSim3]) =
      some (Transform.similarity sampleSim3) := by
  constructor <;> simp [extract_from_composite, flattenOne, flattenMany]

/-- C3 amended: flattening a composite wrapping exactly one rigid transform
returns that transform unchanged; when more than one sub-transform remains
after flattening the first one is returned without error, and a remaining
non-rigid transform is likewise returned without error. -/
theorem extract_from_composite_amended (T U : RigidTransform)
    (S : SimilarityTransform) :
    extract_from_composite (Transform.composite [Transform.rigid T]) =
      some (Transform.rigid T) ∧
    extract_from_composite
        (Transform.composite [Transform.rigid T, Transform.rigid U]) =
      some (Transform.rigid T) ∧
    extract_from_composite (Transform.composite [Transform.similarity S]) =
      some (Transform.similarity S) := by
  refine ⟨?_, ?_, ?_⟩ <;> simp [extract_from_composite, flattenOne, flattenMany]

/-- C4 counterexample: for the sample similarity transform with scale 2,
the scale of the produced inverse scale transform is one half, which is
the scale of the inverse of the input, and differs from the reciprocal of
that inverse scale (which would be 2 again). -/
theorem inv_scale_scale_counterexample :
    (extract_rigid_transform sampleSim 4 5 4 1).1.scale = (2 : ℚ)⁻¹ ∧
    (sampleSim.getInverse.scale)⁻¹ = 2 ∧
    (extract_rigid_transform sampleSim 4 5 4 1).1.scale ≠
      (sampleSim.getInverse.scale)⁻¹ := by
  refine ⟨rfl, by norm_num [SimilarityTransform.getInverse, sampleSim], ?_⟩
  norm_num [extract_rigid_transform, SimilarityTransform.getInverse, sampleSim]

/-- C4 amended: the scale of the produced inverse scale transform equals
the scale component of the inverse of the input transform, i.e. the
reciprocal of the input scale; with a nonzero input scale their product
is one. -/
theorem inv_scale_scale_amended (S : SimilarityTransform)
    (dim0 dim1 dim2 : ℕ) (spacing0 : ℚ) (h : S.scale ≠ 0) :
    (extract_rigid_transform S dim0 dim1 dim2 spacing0).1.scale =
      S.getInverse.scale ∧
    (extract_rigid_transform S dim0 dim1 dim2 spacing0).1.scale * S.scale
      = 1 := by
  refine ⟨rfl, ?_⟩
  show S.scale⁻¹ * S.scale = 1
  exact inv_mul_cancel₀ h

/-- Witness for C4 amended at the sample similarity transform of scale 2. -/
theorem inv_scale_scale_amended_witness :
    sampleSim.scale ≠ 0 ∧
    ((extract_rigid_transform sampleSim 4 5 4 1).1.scale =
       sampleSim.getInverse.scale ∧
     (extract_rigid_transform sampleSim 4 5 4 1).1.scale * sampleSim.scale
       = 1) :=
  ⟨by norm_num [sampleSim], inv_scale_scale_amended sampleSim 4 5 4 1
    (by norm_num [sampleSim])⟩

/-- C5: the center of the produced inverse scale transform equals exactly
(0, (dim1 - dim2) * spacing0, (dim1 - dim2) * spacing0), with the shape
difference taken over the integers as in Python. -/
theorem inv_scale_center_eq (S : SimilarityTransform)
    (dim0 dim1 dim2 : ℕ) (spacing0 : ℚ) :
    (extract_rigid_transform S dim0 dim1 dim2 spacing0).1.center =
      ![0, ((dim1 : ℚ) - (dim2 : ℚ)) * spacing0,
          ((dim1 : ℚ) - (dim2 : ℚ)) * spacing0] :=
  rfl

/-- C6: the rigid transform produced by the decomposition carries exactly
the rotation, translation and center of the input similarity transform:
the scale is reset to one before the matrix is read, so no scale leaks
into the rigid component. -/
theorem rigid_component_eq (S : SimilarityTransform)
    (dim0 dim1 dim2 : ℕ) (spacing0 : ℚ) :
    (extract_rigid_transform S dim0 dim1 dim2 spacing0).2 =
      { rotation := S.rotation, translation := S.translation,
        center := S.center } := by
  simp [extract_rigid_transform, SimilarityTransform.setScale,
    SimilarityTransform.getMatrix]

/-- C10: the inverse scale transform produced by the decomposition carries
only scale and center: its rotation is the identity matrix and its
translation is the zero vector. -/
theorem inv_scale_pure_scale (S : SimilarityTransform)
    (dim0 dim1 dim2 : ℕ) (spacing0 : ℚ) :
    (extract_rigid_transform S dim0 dim1 dim2 spacing0).1.rotation = 1 ∧
    (extract_rigid_transform S dim0 dim1 dim2 spacing0).1.translation = 0 :=
  ⟨rfl, rfl⟩

/-- C7: composing a rigid transform with its inverse (rotation orthonormal)
yields the identity rotation and zero translation, exactly over the
rationals. -/
theorem compose_with_inverse_identity (T : RigidTransform)
    (h : T.rotation * T.rotation.transpose = 1) :
    (compose_transforms [T, T.getInverse]).rotation = 1 ∧
    (compose_transforms [T, T.getInverse]).translation = 0 := by
  constructor
  · simp [compose_transforms, compose_step, RigidTransform.getInverse, h]
  · simp only [compose_transforms, List.reverse_cons, List.reverse_nil,
      List.nil_append, List.cons_append, List.foldl_cons, List.foldl_nil,
      compose_step, RigidTransform.getInverse]
    simp only [zero_add, add_zero, sub_zero, zero_sub, Matrix.mulVec_add,
      Matrix.mulVec_sub, Matrix.mulVec_neg, Matrix.mulVec_mulVec, mul_one, h,
      Matrix.one_mulVec]
    abel

/-- Witness for C7 at a sample rigid transform whose rotation is a quarter
turn, with nonzero center and translation. -/
theorem compose_with_inverse_identity_witness :
    sampleT.rotation * sampleT.rotation.transpose = 1 ∧
    ((compose_transforms [sampleT, sampleT.getInverse]).rotation = 1 ∧
     (compose_transforms [sampleT, sampleT.getInverse]).translation = 0) := by
  have htr : rot90z.transpose = !![0, 1, 0; -1, 0, 0; 0, 0, 1] := by
    ext i j
    fin_cases i <;> fin_cases j <;> rfl
  have h : sampleT.rotation * sampleT.rotation.transpose = 1 := by
    show rot90z * rot90z.transpose = 1
    rw [htr, Matrix.one_fin_three]
    norm_num [Matrix.mul_fin_three, rot90z]
  exact ⟨h, compose_with_inverse_identity sampleT h⟩

/-- C8: with a prior transform and target supplied, the transform selected
for resampling is compose_transforms over the refined transform followed
by the prior transform, and the resampling target is the prior target;
without a prior, the refined transform and the original fixed image are
selected. -/
theorem combine_transforms_branch_correct
    (rigid_mat prior_tfm : RigidTransform)
    (prior_target fixed_image : String) :
    combine_transforms_branch rigid_mat (some (prior_tfm, prior_target))
        fixed_image =
      (compose_transforms [rigid_mat, prior_tfm], prior_target) ∧
    combine_transforms_branch rigid_mat none fixed_image =
      (rigid_mat, fixed_image) :=
  ⟨rfl, rfl⟩

/-- C9: evaluation of the masks argument of the first refinement stage at
the failing input.  When a registration mask is present the constructed
argument is the bare mask path, not the bracketed pair that the claim
states: the conditional expression binds below the percent formatting, so
the pair wrapper applies only to the absent case, which yields the string
with braces [None,None].  The second stage argument is, by contrast, the
well-formed bracketed pair around the brain mask path. -/
theorem stage1_masks_argument_eval :
    stage1_masks_argument (some regmaskPath) = regmaskPath ∧
    stage1_masks_argument (some regmaskPath) ≠
      "[" ++ regmaskPath ++ ",None]" ∧
    stage1_masks_argument none = "[None,None]" ∧
    stage2_masks_argument brainmaskPath = "[" ++ brainmaskPath ++ ",None]" := by
  refine ⟨rfl, ?_, rfl, rfl⟩
  decide
